import Mathlib

/-!
Shallow embedding of the tile-serving core of `src/main.py`.

The repository serves Mapbox vector tiles from a shapefile.  Its core is:

* `tile_to_bbox z x y` — slippy-map tile address to a Web-Mercator
  (EPSG:3857) bounding box, obtained by building the lon/lat rectangle and
  reprojecting its corners with the `pyproj` transformer
  (EPSG:4326 → EPSG:3857, `always_xy`);
* `geometry_to_tile_coords geom bbox` — affine quantization of a clipped
  geometry into tile-local coordinates `[0, 4096]` (Y axis flipped); in
  Python a degenerate box raises `ZeroDivisionError` when the scale factors
  are computed, which the embedding models as an error value;
* `create_pbf_tile` — the per-feature loop: parse (`shapely.shape`),
  reproject, intersection test against the tile box, clip, quantize, and
  collect the surviving features into a single named layer; `None` when no
  feature survives.

Numbers are modelled as real numbers.  The external collaborators
(`fiona`, `shapely`'s set-theoretic operations, the MVT encoder) are
modelled as parameters of the pipeline (`ShapelyOps`); the coordinate-wise
operations the source applies through `shapely.ops.transform` (the
reprojection and the quantization map) are modelled concretely, since the
source supplies the coordinate functions itself.  The forward spherical
Web-Mercator transform used by pyproj for EPSG:4326 → EPSG:3857 is
x = R·λ·π/180, y = R·artanh(sin(φ·π/180)) with R = 6378137, written below
with artanh spelled out by its logarithm formula.
-/

noncomputable section

/-- Web-Mercator radius (WGS84 semi-major axis, metres), as used by
EPSG:3857. -/
def mercR : ℝ := 6378137

/-- Forward Web-Mercator easting of a longitude in degrees (the x output
of `transformer_to_3857.transform`). -/
def mercX (lon : ℝ) : ℝ := mercR * (lon * Real.pi / 180)

/-- Forward Web-Mercator northing of a latitude in degrees (the y output
of `transformer_to_3857.transform`): R·artanh(sin φ), with artanh written
via its logarithm formula. -/
def mercY (lat : ℝ) : ℝ :=
  mercR * (Real.log ((1 + Real.sin (lat * Real.pi / 180)) /
    (1 - Real.sin (lat * Real.pi / 180))) / 2)

/-- The transformer applied to one coordinate pair (lon, lat). -/
def mercPoint (p : ℝ × ℝ) : ℝ × ℝ := (mercX p.1, mercY p.2)

/-- Axis-aligned bounding box in the planar CRS; the four numbers are what
`shapely` reports as `bounds` of the tile polygon built by
`tile_to_bbox`. -/
structure BBox where
  minX : ℝ
  minY : ℝ
  maxX : ℝ
  maxY : ℝ

/-- Bounds of a polygon given by a non-empty list of exterior coordinates
(head passed separately), as `shapely`'s `bounds` computes them. -/
def boundsFold (p : ℝ × ℝ) (ps : List (ℝ × ℝ)) : BBox where
  minX := ps.foldl (fun a q => min a q.1) p.1
  minY := ps.foldl (fun a q => min a q.2) p.2
  maxX := ps.foldl (fun a q => max a q.1) p.1
  maxY := ps.foldl (fun a q => max a q.2) p.2

/-- The inner helper of `tile_to_bbox`: latitude in degrees of the top
edge of tile row `r` at scale `n = 2^z`,
`math.degrees(math.atan(math.sinh(math.pi * (1 - 2 * y / n))))`. -/
def lat_deg_from_tile (n r : ℝ) : ℝ :=
  Real.arctan (Real.sinh (Real.pi * (1 - 2 * r / n))) * 180 / Real.pi

/-- `tile_to_bbox` of `src/main.py`: the slippy-map lon/lat rectangle is
built with `shapely.geometry.box` (exterior ring
[(right,bottom), (right,top), (left,top), (left,bottom), (right,bottom)]),
each corner is reprojected by the transformer, and the resulting polygon
is summarized by its bounds (the downstream consumers use `bbox.bounds`
and the box polygon, which the bounds determine). -/
def tile_to_bbox (z : ℕ) (x y : ℤ) : BBox :=
  let n : ℝ := 2 ^ z
  let lon_deg_left : ℝ := (x : ℝ) / n * 360 - 180
  let lon_deg_right : ℝ := ((x : ℝ) + 1) / n * 360 - 180
  let lat_deg_top : ℝ := lat_deg_from_tile n (y : ℝ)
  let lat_deg_bottom : ℝ := lat_deg_from_tile n ((y : ℝ) + 1)
  boundsFold (mercPoint (lon_deg_right, lat_deg_bottom))
    [mercPoint (lon_deg_right, lat_deg_top),
     mercPoint (lon_deg_left, lat_deg_top),
     mercPoint (lon_deg_left, lat_deg_bottom),
     mercPoint (lon_deg_right, lat_deg_bottom)]

/-- Modelled from the spec's words (claim C1): the bounding box whose west
and east edges are `col/n*360-180` and `(col+1)/n*360-180`, whose top and
bottom edges are `degrees(atan(sinh(pi*(1-2*row/n))))` at `row` and
`row+1`, reprojected edge-wise to Web-Mercator. -/
def tile_to_bbox_spec (z : ℕ) (x y : ℤ) : BBox :=
  let n : ℝ := 2 ^ z
  { minX := mercX ((x : ℝ) / n * 360 - 180)
    minY := mercY (lat_deg_from_tile n ((y : ℝ) + 1))
    maxX := mercX (((x : ℝ) + 1) / n * 360 - 180)
    maxY := mercY (lat_deg_from_tile n (y : ℝ)) }

lemma mercR_pos : (0 : ℝ) < mercR := by unfold mercR; norm_num

/-- The Mercator northing of the slippy-map row latitude collapses to a
linear function of the row fraction: mercY(lat(r)) = R·π·(1 - 2r/n). -/
lemma mercY_lat_deg_from_tile (n r : ℝ) :
    mercY (lat_deg_from_tile n r) = mercR * (Real.pi * (1 - 2 * r / n)) := by
  set t : ℝ := Real.pi * (1 - 2 * r / n) with ht
  have hdeg : lat_deg_from_tile n r * Real.pi / 180 =
      Real.arctan (Real.sinh t) := by
    unfold lat_deg_from_tile
    rw [← ht]
    field_simp
  have hsq : Real.sqrt (1 + Real.sinh t ^ 2) = Real.cosh t := by
    rw [show (1 : ℝ) + Real.sinh t ^ 2 = Real.cosh t ^ 2 by
      rw [Real.cosh_sq]; ring]
    exact Real.sqrt_sq (Real.cosh_pos t).le
  have hc : Real.cosh t ≠ 0 := (Real.cosh_pos t).ne'
  have hcs : Real.cosh t - Real.sinh t ≠ 0 := by
    rw [Real.cosh_sub_sinh]; exact (Real.exp_pos _).ne'
  have e1 : 1 + Real.sinh t / Real.cosh t = Real.exp t / Real.cosh t := by
    rw [eq_div_iff hc, add_mul, one_mul, div_mul_cancel₀ _ hc,
      Real.cosh_add_sinh]
  have e2 : 1 - Real.sinh t / Real.cosh t = Real.exp (-t) / Real.cosh t := by
    rw [eq_div_iff hc, sub_mul, one_mul, div_mul_cancel₀ _ hc,
      Real.cosh_sub_sinh]
  have hratio : (1 + Real.sinh t / Real.cosh t) /
      (1 - Real.sinh t / Real.cosh t) = Real.exp (2 * t) := by
    rw [e1, e2, div_div_eq_mul_div, div_mul_cancel₀ _ hc, ← Real.exp_sub]
    ring_nf
  unfold mercY
  rw [hdeg, Real.sin_arctan, hsq, hratio, Real.log_exp]
  ring

lemma mercX_lt_mercX {a b : ℝ} (h : a < b) : mercX a < mercX b := by
  unfold mercX
  have hπ := Real.pi_pos
  have hR := mercR_pos
  nlinarith [mul_pos (sub_pos.mpr h) hπ, mul_pos hR (mul_pos (sub_pos.mpr h) hπ)]

lemma lon_left_lt_lon_right (z : ℕ) (x : ℤ) :
    (x : ℝ) / 2 ^ z * 360 - 180 < ((x : ℝ) + 1) / 2 ^ z * 360 - 180 := by
  have hn : (0 : ℝ) < 2 ^ z := by positivity
  have hdiv : (x : ℝ) / 2 ^ z < ((x : ℝ) + 1) / 2 ^ z := by
    rw [div_lt_div_iff₀ hn hn]
    nlinarith
  nlinarith

lemma merc_lat_lt (z : ℕ) (y : ℤ) :
    mercY (lat_deg_from_tile (2 ^ z) ((y : ℝ) + 1)) <
      mercY (lat_deg_from_tile (2 ^ z) (y : ℝ)) := by
  rw [mercY_lat_deg_from_tile, mercY_lat_deg_from_tile]
  have hn : (0 : ℝ) < 2 ^ z := by positivity
  have hπ := Real.pi_pos
  have hR := mercR_pos
  have hdiv : 2 * (y : ℝ) / 2 ^ z < 2 * ((y : ℝ) + 1) / 2 ^ z := by
    rw [div_lt_div_iff₀ hn hn]
    nlinarith
  nlinarith [mul_pos (mul_pos hR hπ) (sub_pos.mpr hdiv)]

/-- The polygon-bounds computation in `tile_to_bbox` collapses to the four
edge-wise reprojected bounds. -/
lemma tile_to_bbox_eq_spec (z : ℕ) (x y : ℤ) :
    tile_to_bbox z x y = tile_to_bbox_spec z x y := by
  have hx : mercX ((x : ℝ) / 2 ^ z * 360 - 180) ≤
      mercX (((x : ℝ) + 1) / 2 ^ z * 360 - 180) :=
    (mercX_lt_mercX (lon_left_lt_lon_right z x)).le
  have hy : mercY (lat_deg_from_tile (2 ^ z) ((y : ℝ) + 1)) ≤
      mercY (lat_deg_from_tile (2 ^ z) (y : ℝ)) := (merc_lat_lt z y).le
  unfold tile_to_bbox tile_to_bbox_spec boundsFold mercPoint
  simp only [List.foldl]
  congr 1
  · simp [min_eq_right hx, min_eq_left hx]
  · simp [min_eq_left hy, min_eq_right hy]
  · simp [max_eq_left hx, max_eq_right hx]
  · simp [max_eq_right hy, max_eq_left hy]

lemma tile_to_bbox_minX_lt_maxX (z : ℕ) (x y : ℤ) :
    (tile_to_bbox z x y).minX < (tile_to_bbox z x y).maxX := by
  rw [tile_to_bbox_eq_spec]
  exact mercX_lt_mercX (lon_left_lt_lon_right z x)

lemma tile_to_bbox_minY_lt_maxY (z : ℕ) (x y : ℤ) :
    (tile_to_bbox z x y).minY < (tile_to_bbox z x y).maxY := by
  rw [tile_to_bbox_eq_spec]
  exact merc_lat_lt z y

/-- Shapely geometries as a tagged variant over nested coordinate lists
(the shapes the source handles uniformly through `shapely.ops.transform`
and `shapely.geometry.mapping`). -/
inductive Geometry where
  | point (p : ℝ × ℝ)
  | multiPoint (ps : List (ℝ × ℝ))
  | lineString (ps : List (ℝ × ℝ))
  | multiLineString (ls : List (List (ℝ × ℝ)))
  | polygon (rings : List (List (ℝ × ℝ)))
  | multiPolygon (polys : List (List (List (ℝ × ℝ))))

/-- Concatenation of a list of lists. -/
def flattenL {α : Type} : List (List α) → List α
  | [] => []
  | l :: ls => l ++ flattenL ls

lemma flattenL_map {α β : Type} (g : α → β) :
    ∀ ls : List (List α), flattenL (ls.map (List.map g)) = (flattenL ls).map g := by
  intro ls
  induction ls with
  | nil => rfl
  | cons l ls ih => simp [flattenL, ih]

/-- `shapely.ops.transform(f, geom)`: apply a coordinate function to every
coordinate pair, preserving the geometry's structure. -/
def Geometry.mapCoords (f : ℝ × ℝ → ℝ × ℝ) : Geometry → Geometry
  | .point p => .point (f p)
  | .multiPoint ps => .multiPoint (ps.map f)
  | .lineString ps => .lineString (ps.map f)
  | .multiLineString ls => .multiLineString (ls.map (List.map f))
  | .polygon rings => .polygon (rings.map (List.map f))
  | .multiPolygon polys => .multiPolygon (polys.map (List.map (List.map f)))

/-- All coordinate pairs of a geometry, in order. -/
def Geometry.coords : Geometry → List (ℝ × ℝ)
  | .point p => [p]
  | .multiPoint ps => ps
  | .lineString ps => ps
  | .multiLineString ls => flattenL ls
  | .polygon rings => flattenL rings
  | .multiPolygon polys => flattenL (polys.map flattenL)

lemma coords_mapCoords (f : ℝ × ℝ → ℝ × ℝ) (g : Geometry) :
    (g.mapCoords f).coords = g.coords.map f := by
  cases g with
  | point p => rfl
  | multiPoint ps => rfl
  | lineString ps => rfl
  | multiLineString ls => simp [Geometry.mapCoords, Geometry.coords, flattenL_map]
  | polygon rings => simp [Geometry.mapCoords, Geometry.coords, flattenL_map]
  | multiPolygon polys =>
      simp only [Geometry.mapCoords, Geometry.coords]
      rw [List.map_map,
        show flattenL ∘ List.map (List.map f) = List.map f ∘ flattenL from
          funext fun poly => flattenL_map f poly,
        ← List.map_map, flattenL_map]

/-- TILE_EXTENT = 4096 in `src/main.py`. -/
def TILE_EXTENT : ℝ := 4096

/-- Failure outcomes of the pipeline.  `invalidGeometry` models an
exception raised while parsing/reprojecting a source feature's geometry
(spec taxonomy: InvalidGeometry); `configurationError` models the
`ZeroDivisionError` Python raises in `geometry_to_tile_coords` when a
scale factor divides by a zero box extent (spec taxonomy:
DegenerateBoundingBox → ConfigurationError). -/
inductive PipeError where
  | invalidGeometry
  | configurationError
deriving DecidableEq

/-- `geometry_to_tile_coords` of `src/main.py`: compute
`scale_x = TILE_EXTENT / (maxx - minx)` and
`scale_y = TILE_EXTENT / (maxy - miny)` (Python raises ZeroDivisionError
at the first zero denominator, modelled as the error branches, checked in
evaluation order), then apply the affine function
`(x, y) ↦ ((x - minx) * scale_x, (maxy - y) * scale_y)` to every
coordinate through `shapely.ops.transform`. -/
def geometry_to_tile_coords (geom : Geometry) (bbox : BBox) :
    Except PipeError Geometry :=
  if bbox.maxX - bbox.minX = 0 then .error .configurationError
  else if bbox.maxY - bbox.minY = 0 then .error .configurationError
  else
    let scale_x := TILE_EXTENT / (bbox.maxX - bbox.minX)
    let scale_y := TILE_EXTENT / (bbox.maxY - bbox.minY)
    .ok (Geometry.mapCoords
      (fun p => ((p.1 - bbox.minX) * scale_x, (bbox.maxY - p.2) * scale_y))
      geom)

/-- On a non-degenerate box the quantizer succeeds and is exactly the
affine map of the source. -/
lemma geometry_to_tile_coords_ok (geom : Geometry) (bbox : BBox)
    (hx : bbox.minX < bbox.maxX) (hy : bbox.minY < bbox.maxY) :
    geometry_to_tile_coords geom bbox =
      .ok (Geometry.mapCoords
        (fun p => ((p.1 - bbox.minX) * (TILE_EXTENT / (bbox.maxX - bbox.minX)),
          (bbox.maxY - p.2) * (TILE_EXTENT / (bbox.maxY - bbox.minY))))
        geom) := by
  unfold geometry_to_tile_coords
  rw [if_neg (sub_ne_zero.mpr hx.ne'), if_neg (sub_ne_zero.mpr hy.ne')]

/-- A record as iterated from `fiona.open(...)`: a raw geometry dict
(`feat['geometry']`, abstract) and the attribute mapping
(`feat['properties']`, abstract and carried opaquely). -/
structure RawFeature (Raw Props : Type) where
  geometry : Raw
  properties : Props

/-- A feature as appended to `features` in `create_pbf_tile`: quantized
geometry plus the original properties. -/
structure TileFeature (Props : Type) where
  geometry : Geometry
  properties : Props

/-- A layer dict as appended to `layers` in `create_pbf_tile`. -/
structure Layer (Props : Type) where
  name : String
  features : List (TileFeature Props)

/-- The opened shapefile: its `.name` (possibly absent/falsy) and its
ordered feature sequence. -/
structure FeatureSource (Raw Props : Type) where
  name : Option String
  features : List (RawFeature Raw Props)

/-- The external collaborators used inside the loop of `create_pbf_tile`:
`shapely.geometry.shape` (parsing, which can raise), shapely's
set-theoretic predicates/operations on geometries against the tile box
polygon (which its bounds determine), and `mapbox_vector_tile.encode`. -/
structure ShapelyOps (Raw Props Bytes : Type) where
  shape : Raw → Except PipeError Geometry
  intersects : Geometry → BBox → Bool
  intersection : Geometry → BBox → Geometry
  isEmptyGeom : Geometry → Bool
  encode : List (Layer Props) → Bytes

/-- `src.name or 'layer'` of `src/main.py`: Python's `or` falls back when
the name is `None` or the empty (falsy) string. -/
def layerName (n : Option String) : String :=
  match n with
  | none => "layer"
  | some s => if s = "" then "layer" else s

/-- One iteration of the feature loop in `create_pbf_tile`: parse the raw
geometry (an exception propagates — there is no handler in the source),
reproject with the module-level transformer, drop the feature if it does
not intersect the tile box, clip, drop if the clipped geometry is empty,
otherwise quantize and emit the feature with its original properties
(`mapping` only changes the representation, not the geometry). -/
def processFeature {Raw Props Bytes : Type} (ops : ShapelyOps Raw Props Bytes)
    (bbox : BBox) (f : RawFeature Raw Props) :
    Except PipeError (Option (TileFeature Props)) :=
  match ops.shape f.geometry with
  | .error e => .error e
  | .ok geom =>
    let geom_3857 := Geometry.mapCoords mercPoint geom
    if ¬ ops.intersects geom_3857 bbox then .ok none
    else
      let clipped_geom := ops.intersection geom_3857 bbox
      if ops.isEmptyGeom clipped_geom then .ok none
      else
        match geometry_to_tile_coords clipped_geom bbox with
        | .error e => .error e
        | .ok tile_geom => .ok (some ⟨tile_geom, f.properties⟩)

/-- The whole feature loop: surviving features in source order; the first
exception aborts the loop (and hence the tile request). -/
def processFeatures {Raw Props Bytes : Type} (ops : ShapelyOps Raw Props Bytes)
    (bbox : BBox) : List (RawFeature Raw Props) →
    Except PipeError (List (TileFeature Props))
  | [] => .ok []
  | f :: fs =>
    match processFeature ops bbox f with
    | .error e => .error e
    | .ok none => processFeatures ops bbox fs
    | .ok (some t) =>
      match processFeatures ops bbox fs with
      | .error e => .error e
      | .ok ts => .ok (t :: ts)

/-- `create_pbf_tile` up to (but not including) the encoding step: the
`layers` list — empty when no feature survived, otherwise the single
layer named `src.name or 'layer'`. -/
def buildLayers {Raw Props Bytes : Type} (ops : ShapelyOps Raw Props Bytes)
    (src : FeatureSource Raw Props) (z : ℕ) (x y : ℤ) :
    Except PipeError (List (Layer Props)) :=
  let tile_bbox := tile_to_bbox z x y
  match processFeatures ops tile_bbox src.features with
  | .error e => .error e
  | .ok feats =>
    .ok (if feats.isEmpty then [] else [⟨layerName src.name, feats⟩])

/-- `create_pbf_tile` of `src/main.py`: `None` when no layer was built,
otherwise the encoded layer list. -/
def create_pbf_tile {Raw Props Bytes : Type} (ops : ShapelyOps Raw Props Bytes)
    (src : FeatureSource Raw Props) (z : ℕ) (x y : ℤ) :
    Except PipeError (Option Bytes) :=
  match buildLayers ops src z x y with
  | .error e => .error e
  | .ok layers =>
    if layers.isEmpty then .ok none else .ok (some (ops.encode layers))

/-- The transport outcomes of `serve_pbf_tile`: 204 No Content, the tile
bytes, or an unhandled exception (server error). -/
inductive TileResponse (Bytes : Type) where
  | noContent
  | content (b : Bytes)
  | serverError (e : PipeError)

/-- `serve_pbf_tile` of `src/main.py`. -/
def serve_pbf_tile {Raw Props Bytes : Type} (ops : ShapelyOps Raw Props Bytes)
    (src : FeatureSource Raw Props) (z : ℕ) (x y : ℤ) : TileResponse Bytes :=
  match create_pbf_tile ops src z x y with
  | .error e => .serverError e
  | .ok none => .noContent
  | .ok (some b) => .content b

/-- The survival test of the loop, as a predicate on a raw feature: it
parses, its reprojection intersects the tile box, and its clip against
the box is non-empty. -/
def survives {Raw Props Bytes : Type} (ops : ShapelyOps Raw Props Bytes)
    (bbox : BBox) (f : RawFeature Raw Props) : Bool :=
  match ops.shape f.geometry with
  | .error _ => false
  | .ok geom =>
    let geom_3857 := Geometry.mapCoords mercPoint geom
    ops.intersects geom_3857 bbox &&
      ! ops.isEmptyGeom (ops.intersection geom_3857 bbox)

/-- The feature emitted for a surviving raw feature: the clip of its
reprojection, quantized by the affine tile map, with the original
properties.  (The parse-failure branch is unreachable for surviving
features.) -/
def emitFeature {Raw Props Bytes : Type} (ops : ShapelyOps Raw Props Bytes)
    (bbox : BBox) (f : RawFeature Raw Props) : TileFeature Props :=
  match ops.shape f.geometry with
  | .error _ => ⟨Geometry.point (0, 0), f.properties⟩
  | .ok geom =>
    let clipped_geom := ops.intersection (Geometry.mapCoords mercPoint geom) bbox
    ⟨Geometry.mapCoords
      (fun p => ((p.1 - bbox.minX) * (TILE_EXTENT / (bbox.maxX - bbox.minX)),
        (bbox.maxY - p.2) * (TILE_EXTENT / (bbox.maxY - bbox.minY))))
      clipped_geom,
     f.properties⟩

lemma emitFeature_properties {Raw Props Bytes : Type}
    (ops : ShapelyOps Raw Props Bytes) (bbox : BBox) (f : RawFeature Raw Props) :
    (emitFeature ops bbox f).properties = f.properties := by
  cases hsh : ops.shape f.geometry <;> simp [emitFeature, hsh]

/-- The loop is a filter of the input: when every feature parses and the
box is non-degenerate, it succeeds with exactly the surviving features,
in input order, each emitted by the affine quantization. -/
lemma processFeatures_eq_filter {Raw Props Bytes : Type}
    (ops : ShapelyOps Raw Props Bytes) (bbox : BBox)
    (hx : bbox.minX < bbox.maxX) (hy : bbox.minY < bbox.maxY) :
    ∀ fs : List (RawFeature Raw Props),
    (∀ f ∈ fs, ∃ g, ops.shape f.geometry = .ok g) →
    processFeatures ops bbox fs =
      .ok ((fs.filter (survives ops bbox)).map (emitFeature ops bbox)) := by
  intro fs
  induction fs with
  | nil => intro _; rfl
  | cons f fs ih =>
    intro hparse
    obtain ⟨g, hg⟩ := hparse f (by simp)
    have ih2 := ih fun f2 h2 => hparse f2 (by simp [h2])
    cases hb : ops.intersects (Geometry.mapCoords mercPoint g) bbox with
    | false =>
      have hs : survives ops bbox f = false := by simp [survives, hg, hb]
      simp [processFeatures, processFeature, hg, hb, List.filter_cons, hs, ih2]
    | true =>
      cases he : ops.isEmptyGeom
          (ops.intersection (Geometry.mapCoords mercPoint g) bbox) with
      | true =>
        have hs : survives ops bbox f = false := by simp [survives, hg, hb, he]
        simp [processFeatures, processFeature, hg, hb, he, List.filter_cons,
          hs, ih2]
      | false =>
        have hs : survives ops bbox f = true := by simp [survives, hg, hb, he]
        have hq := geometry_to_tile_coords_ok
          (ops.intersection (Geometry.mapCoords mercPoint g) bbox) bbox hx hy
        simp [processFeatures, processFeature, hg, hb, he, hq,
          List.filter_cons, hs, ih2, emitFeature]

/-- When every feature parses but none survives, the loop succeeds with
the empty list (quantization is never reached, so no hypothesis on the
box is needed). -/
lemma processFeatures_all_dropped {Raw Props Bytes : Type}
    (ops : ShapelyOps Raw Props Bytes) (bbox : BBox) :
    ∀ fs : List (RawFeature Raw Props),
    (∀ f ∈ fs, ∃ g, ops.shape f.geometry = .ok g) →
    (∀ f ∈ fs, survives ops bbox f = false) →
    processFeatures ops bbox fs = .ok [] := by
  intro fs
  induction fs with
  | nil => intro _ _; rfl
  | cons f fs ih =>
    intro hparse hdrop
    obtain ⟨g, hg⟩ := hparse f (by simp)
    have hs := hdrop f (by simp)
    have ih2 := ih (fun f2 h2 => hparse f2 (by simp [h2]))
      (fun f2 h2 => hdrop f2 (by simp [h2]))
    cases hb : ops.intersects (Geometry.mapCoords mercPoint g) bbox with
    | false => simp [processFeatures, processFeature, hg, hb, ih2]
    | true =>
      have he : ops.isEmptyGeom
          (ops.intersection (Geometry.mapCoords mercPoint g) bbox) = true := by
        simpa [survives, hg, hb] using hs
      simp [processFeatures, processFeature, hg, hb, he, ih2]

/-- A parse failure anywhere in the input aborts the whole loop with an
error. -/
lemma processFeatures_error {Raw Props Bytes : Type}
    (ops : ShapelyOps Raw Props Bytes) (bbox : BBox) :
    ∀ fs : List (RawFeature Raw Props),
    (∃ f ∈ fs, ∃ e, ops.shape f.geometry = .error e) →
    ∃ e2, processFeatures ops bbox fs = .error e2 := by
  intro fs
  induction fs with
  | nil => rintro ⟨f, hmem, _⟩; exact absurd hmem (List.not_mem_nil f)
  | cons f fs ih =>
    rintro ⟨f0, hmem, e0, herr⟩
    cases hp : processFeature ops bbox f with
    | error e1 => exact ⟨e1, by simp [processFeatures, hp]⟩
    | ok o =>
      have hfok : ∀ e, ops.shape f.geometry ≠ .error e := by
        intro e he
        simp [processFeature, he] at hp
      have hmem2 : f0 ∈ fs := by
        rcases List.mem_cons.mp hmem with h | h
        · exact absurd herr (h ▸ hfok e0)
        · exact h
      obtain ⟨e2, hrec⟩ := ih ⟨f0, hmem2, e0, herr⟩
      cases o with
      | none => exact ⟨e2, by simp [processFeatures, hp, hrec]⟩
      | some t => exact ⟨e2, by simp [processFeatures, hp, hrec]⟩

/-- Concrete collaborator instance for witnesses: parsing succeeds on a
present geometry and fails on an absent one; every geometry intersects
the box; clipping is the identity; nothing is empty. -/
def opsOk : ShapelyOps (Option Geometry) Nat Nat where
  shape := fun r => match r with
    | some g => .ok g
    | none => .error .invalidGeometry
  intersects := fun _ _ => true
  intersection := fun g _ => g
  isEmptyGeom := fun _ => false
  encode := fun _ => 0

/-- Concrete collaborator instance for witnesses in which no geometry
intersects the tile box. -/
def opsOut : ShapelyOps (Option Geometry) Nat Nat where
  shape := fun r => match r with
    | some g => .ok g
    | none => .error .invalidGeometry
  intersects := fun _ _ => false
  intersection := fun g _ => g
  isEmptyGeom := fun _ => false
  encode := fun _ => 0

/-- A feature whose geometry parses. -/
def featGood : RawFeature (Option Geometry) Nat := ⟨some (Geometry.point (2, 3)), 5⟩

/-- A feature whose geometry fails to parse. -/
def featBad : RawFeature (Option Geometry) Nat := ⟨none, 7⟩

/-- A source holding a bad feature followed by a good one. -/
def srcBad : FeatureSource (Option Geometry) Nat := ⟨none, [featBad, featGood]⟩

/-- A source holding a single good feature. -/
def srcOut : FeatureSource (Option Geometry) Nat := ⟨some "roads", [featGood]⟩

/-- A non-degenerate unit bounding box. -/
def bbox01 : BBox := ⟨0, 0, 1, 1⟩

/-- A degenerate (zero-width) bounding box. -/
def bboxDeg : BBox := ⟨0, 0, 0, 1⟩

/-- A one-element list of good features. -/
def fsGood : List (RawFeature (Option Geometry) Nat) := [featGood]

/-- C1: for every zoom z ≥ 0 and integer col/row, `tile_to_bbox` produces
the bounding box of the slippy-map formulas — west/east longitudes
col/n·360-180 and (col+1)/n·360-180, top/bottom latitudes
degrees(atan(sinh(π(1-2·row/n)))) at row and row+1 — reprojected to the
planar Web-Mercator CRS. -/
theorem tile_to_bbox_matches_slippy_spec (z : ℕ) (x y : ℤ) :
    tile_to_bbox z x y = tile_to_bbox_spec z x y :=
  tile_to_bbox_eq_spec z x y

/-- C8: `tile_to_bbox` has no error path — it is total and always returns
a well-formed box with minX < maxX and minY < maxY, for every zoom ≥ 0
and all integer col/row. -/
theorem tile_to_bbox_always_wellformed (z : ℕ) (x y : ℤ) :
    (tile_to_bbox z x y).minX < (tile_to_bbox z x y).maxX ∧
      (tile_to_bbox z x y).minY < (tile_to_bbox z x y).maxY :=
  ⟨tile_to_bbox_minX_lt_maxX z x y, tile_to_bbox_minY_lt_maxY z x y⟩

/-- C2: on a non-degenerate box the quantizer maps every coordinate
(x, y) to exactly ((x - minX)·scaleX, (maxY - y)·scaleY) with
scaleX = extent/(maxX - minX) and scaleY = extent/(maxY - minY); in
particular a point at y = maxY gets tile-local Y = 0 and a point at
y = minY gets tile-local Y = extent. -/
theorem geometry_to_tile_coords_affine (geom : Geometry) (bbox : BBox)
    (hx : bbox.minX < bbox.maxX) (hy : bbox.minY < bbox.maxY) :
    geometry_to_tile_coords geom bbox =
      .ok (Geometry.mapCoords
        (fun p => ((p.1 - bbox.minX) * (TILE_EXTENT / (bbox.maxX - bbox.minX)),
          (bbox.maxY - p.2) * (TILE_EXTENT / (bbox.maxY - bbox.minY))))
        geom) ∧
    (∀ px : ℝ, geometry_to_tile_coords (Geometry.point (px, bbox.maxY)) bbox =
      .ok (Geometry.point
        ((px - bbox.minX) * (TILE_EXTENT / (bbox.maxX - bbox.minX)), 0))) ∧
    (∀ px : ℝ, geometry_to_tile_coords (Geometry.point (px, bbox.minY)) bbox =
      .ok (Geometry.point
        ((px - bbox.minX) * (TILE_EXTENT / (bbox.maxX - bbox.minX)),
          TILE_EXTENT))) := by
  refine ⟨geometry_to_tile_coords_ok geom bbox hx hy, ?_, ?_⟩
  · intro px
    rw [geometry_to_tile_coords_ok (Geometry.point (px, bbox.maxY)) bbox hx hy]
    simp [Geometry.mapCoords]
  · intro px
    rw [geometry_to_tile_coords_ok (Geometry.point (px, bbox.minY)) bbox hx hy]
    have hh : bbox.maxY - bbox.minY ≠ 0 := sub_ne_zero.mpr hy.ne'
    have hcancel : (bbox.maxY - bbox.minY) *
        (TILE_EXTENT / (bbox.maxY - bbox.minY)) = TILE_EXTENT := by
      field_simp
    simp [Geometry.mapCoords, hcancel]

/-- Witness for C2: the affine quantization formula at a concrete box and
geometry, hypotheses discharged at bbox01. -/
theorem geometry_to_tile_coords_affine_witness :
    bbox01.minX < bbox01.maxX ∧ bbox01.minY < bbox01.maxY ∧
    (geometry_to_tile_coords (Geometry.point (0, 0)) bbox01 =
      .ok (Geometry.mapCoords
        (fun p =>
          ((p.1 - bbox01.minX) * (TILE_EXTENT / (bbox01.maxX - bbox01.minX)),
          (bbox01.maxY - p.2) * (TILE_EXTENT / (bbox01.maxY - bbox01.minY))))
        (Geometry.point (0, 0))) ∧
    (∀ px : ℝ, geometry_to_tile_coords (Geometry.point (px, bbox01.maxY)) bbox01 =
      .ok (Geometry.point
        ((px - bbox01.minX) * (TILE_EXTENT / (bbox01.maxX - bbox01.minX)), 0))) ∧
    (∀ px : ℝ, geometry_to_tile_coords (Geometry.point (px, bbox01.minY)) bbox01 =
      .ok (Geometry.point
        ((px - bbox01.minX) * (TILE_EXTENT / (bbox01.maxX - bbox01.minX)),
          TILE_EXTENT)))) :=
  ⟨by norm_num [bbox01], by norm_num [bbox01],
    geometry_to_tile_coords_affine (Geometry.point (0, 0)) bbox01
      (by norm_num [bbox01]) (by norm_num [bbox01])⟩

/-- C3: for a non-degenerate box, when every input feature parses, the
loop's output is exactly the subsequence of input features whose
reprojected geometry intersects the box and whose clip is non-empty, in
the input's relative order; discarded features never appear. -/
theorem processFeatures_exact_subsequence {Raw Props Bytes : Type}
    (ops : ShapelyOps Raw Props Bytes) (bbox : BBox)
    (hx : bbox.minX < bbox.maxX) (hy : bbox.minY < bbox.maxY)
    (fs : List (RawFeature Raw Props))
    (hparse : ∀ f ∈ fs, ∃ g, ops.shape f.geometry = .ok g) :
    processFeatures ops bbox fs =
      .ok ((fs.filter (survives ops bbox)).map (emitFeature ops bbox)) :=
  processFeatures_eq_filter ops bbox hx hy fs hparse

/-- Witness for C3 at a concrete collaborator instance, box and input. -/
theorem processFeatures_exact_subsequence_witness :
    bbox01.minX < bbox01.maxX ∧ bbox01.minY < bbox01.maxY ∧
    (∀ f ∈ fsGood, ∃ g, opsOk.shape f.geometry = .ok g) ∧
    processFeatures opsOk bbox01 fsGood =
      .ok ((fsGood.filter (survives opsOk bbox01)).map (emitFeature opsOk bbox01)) := by
  have hparse : ∀ f ∈ fsGood, ∃ g, opsOk.shape f.geometry = .ok g := by
    intro f hf
    simp only [fsGood, List.mem_singleton] at hf
    subst hf
    exact ⟨Geometry.point (2, 3), rfl⟩
  exact ⟨by norm_num [bbox01], by norm_num [bbox01], hparse,
    processFeatures_exact_subsequence opsOk bbox01 (by norm_num [bbox01])
      (by norm_num [bbox01]) fsGood hparse⟩

/-- C4: when every coordinate of the clipped geometry lies inside (or on
the boundary of) a non-degenerate box, every coordinate of the quantized
geometry lies in [0, EXTENT] in both axes. -/
theorem quantized_coords_within_extent (geom : Geometry) (bbox : BBox)
    (hx : bbox.minX < bbox.maxX) (hy : bbox.minY < bbox.maxY)
    (hcont : ∀ p ∈ geom.coords,
      bbox.minX ≤ p.1 ∧ p.1 ≤ bbox.maxX ∧ bbox.minY ≤ p.2 ∧ p.2 ≤ bbox.maxY) :
    ∃ g2, geometry_to_tile_coords geom bbox = .ok g2 ∧
      ∀ q ∈ g2.coords,
        0 ≤ q.1 ∧ q.1 ≤ TILE_EXTENT ∧ 0 ≤ q.2 ∧ q.2 ≤ TILE_EXTENT := by
  refine ⟨_, geometry_to_tile_coords_ok geom bbox hx hy, ?_⟩
  intro q hq
  rw [coords_mapCoords] at hq
  obtain ⟨p, hp, rfl⟩ := List.mem_map.mp hq
  obtain ⟨h1, h2, h3, h4⟩ := hcont p hp
  have hw : (0 : ℝ) < bbox.maxX - bbox.minX := sub_pos.mpr hx
  have hh : (0 : ℝ) < bbox.maxY - bbox.minY := sub_pos.mpr hy
  have hE : (0 : ℝ) ≤ TILE_EXTENT := by norm_num [TILE_EXTENT]
  have hsx : (0 : ℝ) ≤ TILE_EXTENT / (bbox.maxX - bbox.minX) :=
    div_nonneg hE hw.le
  have hsy : (0 : ℝ) ≤ TILE_EXTENT / (bbox.maxY - bbox.minY) :=
    div_nonneg hE hh.le
  have hcx : (bbox.maxX - bbox.minX) *
      (TILE_EXTENT / (bbox.maxX - bbox.minX)) = TILE_EXTENT := by
    field_simp
  have hcy : (bbox.maxY - bbox.minY) *
      (TILE_EXTENT / (bbox.maxY - bbox.minY)) = TILE_EXTENT := by
    field_simp
  dsimp only
  refine ⟨mul_nonneg (by linarith) hsx, ?_,
    mul_nonneg (by linarith) hsy, ?_⟩
  · nlinarith [mul_le_mul_of_nonneg_right
      (show p.1 - bbox.minX ≤ bbox.maxX - bbox.minX by linarith) hsx]
  · nlinarith [mul_le_mul_of_nonneg_right
      (show bbox.maxY - p.2 ≤ bbox.maxY - bbox.minY by linarith) hsy]

/-- Witness for C4 at a concrete box and a contained point. -/
theorem quantized_coords_within_extent_witness :
    bbox01.minX < bbox01.maxX ∧ bbox01.minY < bbox01.maxY ∧
    (∀ p ∈ (Geometry.point (0, 0)).coords,
      bbox01.minX ≤ p.1 ∧ p.1 ≤ bbox01.maxX ∧
        bbox01.minY ≤ p.2 ∧ p.2 ≤ bbox01.maxY) ∧
    (∃ g2, geometry_to_tile_coords (Geometry.point (0, 0)) bbox01 = .ok g2 ∧
      ∀ q ∈ g2.coords,
        0 ≤ q.1 ∧ q.1 ≤ TILE_EXTENT ∧ 0 ≤ q.2 ∧ q.2 ≤ TILE_EXTENT) := by
  have hcont : ∀ p ∈ (Geometry.point ((0 : ℝ), (0 : ℝ))).coords,
      bbox01.minX ≤ p.1 ∧ p.1 ≤ bbox01.maxX ∧
        bbox01.minY ≤ p.2 ∧ p.2 ≤ bbox01.maxY := by
    intro p hp
    simp only [Geometry.coords, List.mem_singleton] at hp
    subst hp
    norm_num [bbox01]
  exact ⟨by norm_num [bbox01], by norm_num [bbox01], hcont,
    quantized_coords_within_extent (Geometry.point (0, 0)) bbox01
      (by norm_num [bbox01]) (by norm_num [bbox01]) hcont⟩

/-- Counterexample for C5: with a source holding a feature whose geometry
fails to parse followed by a perfectly good feature, `create_pbf_tile`
returns the propagated error — the loop has no per-feature handler, so it
does not skip the bad feature and does not produce a tile for the rest. -/
theorem create_pbf_tile_parse_failure_cex :
    create_pbf_tile opsOk srcBad 0 0 0 = .error PipeError.invalidGeometry ∧
    opsOk.shape featGood.geometry = .ok (Geometry.point (2, 3)) ∧
    srcBad.features = [featBad, featGood] := by
  refine ⟨?_, rfl, rfl⟩
  simp [create_pbf_tile, buildLayers, processFeatures, processFeature,
    opsOk, srcBad, featBad]

/-- C5 as amended: a feature whose geometry fails to parse/reproject makes
the whole `create_pbf_tile` invocation fail with an error — the failure is
not confined to that feature and the remaining features are not
processed into a tile. -/
theorem create_pbf_tile_parse_failure_aborts {Raw Props Bytes : Type}
    (ops : ShapelyOps Raw Props Bytes) (src : FeatureSource Raw Props)
    (z : ℕ) (x y : ℤ)
    (hbad : ∃ f ∈ src.features, ∃ e, ops.shape f.geometry = .error e) :
    ∃ e2, create_pbf_tile ops src z x y = .error e2 := by
  obtain ⟨e2, hp⟩ :=
    processFeatures_error ops (tile_to_bbox z x y) src.features hbad
  exact ⟨e2, by simp [create_pbf_tile, buildLayers, hp]⟩

/-- Witness for the amended C5, hypotheses discharged at the concrete bad
source. -/
theorem create_pbf_tile_parse_failure_aborts_witness :
    (∃ f ∈ srcBad.features, ∃ e, opsOk.shape f.geometry = .error e) ∧
    ∃ e2, create_pbf_tile opsOk srcBad 0 0 0 = .error e2 := by
  have hbad : ∃ f ∈ srcBad.features, ∃ e, opsOk.shape f.geometry = .error e :=
    ⟨featBad, by simp [srcBad], PipeError.invalidGeometry, rfl⟩
  exact ⟨hbad, create_pbf_tile_parse_failure_aborts opsOk srcBad 0 0 0 hbad⟩

/-- C6: on a degenerate bounding box (zero width or zero height) the
quantizer fails with the degenerate-box error (Python's ZeroDivisionError
when a scale factor is computed; the spec's ConfigurationError) instead of
proceeding. -/
theorem geometry_to_tile_coords_degenerate_box (geom : Geometry) (bbox : BBox)
    (h : bbox.maxX = bbox.minX ∨ bbox.maxY = bbox.minY) :
    geometry_to_tile_coords geom bbox = .error PipeError.configurationError := by
  unfold geometry_to_tile_coords
  rcases h with h | h
  · rw [if_pos (sub_eq_zero.mpr h)]
  · by_cases hx : bbox.maxX - bbox.minX = 0
    · rw [if_pos hx]
    · rw [if_neg hx, if_pos (sub_eq_zero.mpr h)]

/-- Witness for C6 at a concrete zero-width box. -/
theorem geometry_to_tile_coords_degenerate_box_witness :
    (bboxDeg.maxX = bboxDeg.minX ∨ bboxDeg.maxY = bboxDeg.minY) ∧
    geometry_to_tile_coords (Geometry.point (0, 0)) bboxDeg =
      .error PipeError.configurationError :=
  ⟨Or.inl rfl,
    geometry_to_tile_coords_degenerate_box (Geometry.point (0, 0)) bboxDeg
      (Or.inl rfl)⟩

/-- C7: when every feature parses but none survives — each one either
misses the tile box or clips to an empty geometry — the pipeline
terminates with the EmptyTile outcome: zero layers are built,
`create_pbf_tile` returns the no-content value, and the endpoint maps it
to No Content rather than a failure. -/
theorem create_pbf_tile_empty_outcome {Raw Props Bytes : Type}
    (ops : ShapelyOps Raw Props Bytes) (src : FeatureSource Raw Props)
    (z : ℕ) (x y : ℤ)
    (hparse : ∀ f ∈ src.features, ∃ g, ops.shape f.geometry = .ok g)
    (hdrop : ∀ f ∈ src.features, ∀ g, ops.shape f.geometry = .ok g →
      (ops.intersects (Geometry.mapCoords mercPoint g) (tile_to_bbox z x y)
          = false ∨
        ops.isEmptyGeom (ops.intersection (Geometry.mapCoords mercPoint g)
          (tile_to_bbox z x y)) = true)) :
    buildLayers ops src z x y = .ok [] ∧
    create_pbf_tile ops src z x y = .ok none ∧
    serve_pbf_tile ops src z x y = TileResponse.noContent := by
  have hdrop2 : ∀ f ∈ src.features,
      survives ops (tile_to_bbox z x y) f = false := by
    intro f hf
    obtain ⟨g, hg⟩ := hparse f hf
    rcases hdrop f hf g hg with h | h <;> simp [survives, hg, h]
  have hp := processFeatures_all_dropped ops (tile_to_bbox z x y)
    src.features hparse hdrop2
  have hb : buildLayers ops src z x y = .ok [] := by
    simp [buildLayers, hp]
  exact ⟨hb, by simp [create_pbf_tile, hb],
    by simp [serve_pbf_tile, create_pbf_tile, hb]⟩

/-- Witness for C7: a source whose single feature misses the box. -/
theorem create_pbf_tile_empty_outcome_witness :
    (∀ f ∈ srcOut.features, ∃ g, opsOut.shape f.geometry = .ok g) ∧
    (∀ f ∈ srcOut.features, ∀ g, opsOut.shape f.geometry = .ok g →
      (opsOut.intersects (Geometry.mapCoords mercPoint g) (tile_to_bbox 0 0 0)
          = false ∨
        opsOut.isEmptyGeom (opsOut.intersection (Geometry.mapCoords mercPoint g)
          (tile_to_bbox 0 0 0)) = true)) ∧
    (buildLayers opsOut srcOut 0 0 0 = .ok [] ∧
      create_pbf_tile opsOut srcOut 0 0 0 = .ok none ∧
      serve_pbf_tile opsOut srcOut 0 0 0 = TileResponse.noContent) := by
  have hparse : ∀ f ∈ srcOut.features, ∃ g, opsOut.shape f.geometry = .ok g := by
    intro f hf
    simp only [srcOut, List.mem_singleton] at hf
    subst hf
    exact ⟨Geometry.point (2, 3), rfl⟩
  have hdrop : ∀ f ∈ srcOut.features, ∀ g, opsOut.shape f.geometry = .ok g →
      (opsOut.intersects (Geometry.mapCoords mercPoint g) (tile_to_bbox 0 0 0)
          = false ∨
        opsOut.isEmptyGeom (opsOut.intersection (Geometry.mapCoords mercPoint g)
          (tile_to_bbox 0 0 0)) = true) := by
    intro f _ g _
    exact Or.inl rfl
  exact ⟨hparse, hdrop,
    create_pbf_tile_empty_outcome opsOut srcOut 0 0 0 hparse hdrop⟩

/-- C9: every feature that survives clipping is emitted with its original
attribute mapping unchanged — the output's property lists are exactly the
surviving inputs' property mappings, in order. -/
theorem pipeline_preserves_properties {Raw Props Bytes : Type}
    (ops : ShapelyOps Raw Props Bytes) (bbox : BBox)
    (hx : bbox.minX < bbox.maxX) (hy : bbox.minY < bbox.maxY)
    (fs : List (RawFeature Raw Props))
    (hparse : ∀ f ∈ fs, ∃ g, ops.shape f.geometry = .ok g) :
    ∃ out, processFeatures ops bbox fs = .ok out ∧
      out.map (fun t => t.properties) =
        (fs.filter (survives ops bbox)).map (fun f => f.properties) := by
  refine ⟨_, processFeatures_eq_filter ops bbox hx hy fs hparse, ?_⟩
  simp [List.map_map, Function.comp_def, emitFeature_properties]

/-- Witness for C9 at a concrete collaborator instance, box and input. -/
theorem pipeline_preserves_properties_witness :
    bbox01.minX < bbox01.maxX ∧ bbox01.minY < bbox01.maxY ∧
    (∀ f ∈ fsGood, ∃ g, opsOk.shape f.geometry = .ok g) ∧
    (∃ out, processFeatures opsOk bbox01 fsGood = .ok out ∧
      out.map (fun t => t.properties) =
        (fsGood.filter (survives opsOk bbox01)).map (fun f => f.properties)) := by
  have hparse : ∀ f ∈ fsGood, ∃ g, opsOk.shape f.geometry = .ok g := by
    intro f hf
    simp only [fsGood, List.mem_singleton] at hf
    subst hf
    exact ⟨Geometry.point (2, 3), rfl⟩
  exact ⟨by norm_num [bbox01], by norm_num [bbox01], hparse,
    pipeline_preserves_properties opsOk bbox01 (by norm_num [bbox01])
      (by norm_num [bbox01]) fsGood hparse⟩

/-- C10: every invocation of `create_pbf_tile` either fails, or returns
the no-content value with zero layers, or hands the encoder exactly one
layer (never two or more) whose name is the source's name with the
fallback "layer" for an absent or falsy (empty) name. -/
theorem create_pbf_tile_single_named_layer {Raw Props Bytes : Type}
    (ops : ShapelyOps Raw Props Bytes) (src : FeatureSource Raw Props)
    (z : ℕ) (x y : ℤ) :
    ((∃ e, create_pbf_tile ops src z x y = .error e) ∨
      (buildLayers ops src z x y = .ok [] ∧
        create_pbf_tile ops src z x y = .ok none) ∨
      (∃ feats, feats.isEmpty = false ∧
        buildLayers ops src z x y = .ok [⟨layerName src.name, feats⟩] ∧
        create_pbf_tile ops src z x y =
          .ok (some (ops.encode [⟨layerName src.name, feats⟩])))) ∧
    layerName none = "layer" ∧ layerName (some "") = "layer" ∧
    ∀ s : String, layerName (some s) = if s = "" then "layer" else s := by
  refine ⟨?_, rfl, rfl, fun s => rfl⟩
  cases hpf : processFeatures ops (tile_to_bbox z x y) src.features with
  | error e =>
    left
    exact ⟨e, by simp [create_pbf_tile, buildLayers, hpf]⟩
  | ok feats =>
    cases feats with
    | nil =>
      right; left
      have hb : buildLayers ops src z x y = .ok [] := by
        simp [buildLayers, hpf]
      exact ⟨hb, by simp [create_pbf_tile, hb]⟩
    | cons t ts =>
      right; right
      have hb : buildLayers ops src z x y =
          .ok [⟨layerName src.name, t :: ts⟩] := by
        simp [buildLayers, hpf]
      exact ⟨t :: ts, rfl, hb, by simp [create_pbf_tile, hb]⟩
